import Mathlib

/-!
Shallow embedding of the outbound-call resilience core of
`fbx_core/utils/rate_limiter.py`: a token bucket, a circuit breaker, and the
retry/backoff orchestrator `RateLimiter.execute`.

Modelling conventions:
* Python floats and timestamps become `ℚ`; Python `int` fields become `ℤ`
  (counters that are only ever incremented from 0 become `ℕ`).
* `time.monotonic()` / `datetime.now()` are nondeterministic clock reads; the
  embedding threads an oracle `clock : ℕ → ℚ` and an index of the next read.
  Each admission check and each statistics timestamp samples one oracle value.
* The unit of work `func` is an oracle `work : ℕ → Except ε α` giving the
  outcome of the i-th invocation; raising is the `Except.error` case.
* `time.sleep` has no effect on the explicit clock oracle; requested sleep
  durations are recorded in order so that theorems can speak about them.
* The `while` loop of `execute` is not structurally terminating (its
  rate-limited branch re-enters without touching `retry_count`), so the loop
  is given explicit fuel; running out of fuel is reported as a distinct
  outcome `fuelOut`.
* Logging statements and the `threading.Lock` critical sections are elided:
  the embedding is of single-threaded executions, where a `with self.lock`
  block is just its body.
-/

/-- States of the circuit breaker (`CircuitState` in the source).
`opn` renders Python's `OPEN`. -/
inductive CircuitState where
  | closed
  | opn
  | halfOpen
deriving DecidableEq

/-- Configuration record (`RateLimitConfig`).  The two logging flags are
omitted: they only gate `logger` calls. -/
structure RateLimitConfig where
  requests_per_second : ℚ
  burst_size : ℤ
  max_retries : ℕ
  initial_backoff : ℚ
  max_backoff : ℚ
  backoff_multiplier : ℚ
  failure_threshold : ℕ
  recovery_timeout : ℚ
  half_open_max_calls : ℕ
deriving DecidableEq

/-- Statistics counters (`RateLimitStats`). -/
structure RateLimitStats where
  total_requests : ℕ
  successful_requests : ℕ
  failed_requests : ℕ
  rate_limited_requests : ℕ
  circuit_breaker_rejections : ℕ
  total_retry_attempts : ℕ
  last_request_time : Option ℚ
  last_failure_time : Option ℚ
deriving DecidableEq

/-- Fresh statistics record: every counter 0, both timestamps `None`. -/
def RateLimitStats.init : RateLimitStats :=
  { total_requests := 0
    successful_requests := 0
    failed_requests := 0
    rate_limited_requests := 0
    circuit_breaker_rejections := 0
    total_retry_attempts := 0
    last_request_time := none
    last_failure_time := none }

/-- Token bucket state (`TokenBucket.__init__`): `rate`/`tokens` are floats,
`capacity` an int; `tokens` starts at `capacity`. -/
structure TokenBucket where
  rate : ℚ
  capacity : ℤ
  tokens : ℚ
  last_update : ℚ
deriving DecidableEq

/-- `TokenBucket(rate, capacity)` constructed at clock value `now`. -/
def TokenBucket.init (rate : ℚ) (capacity : ℤ) (now : ℚ) : TokenBucket :=
  { rate := rate, capacity := capacity, tokens := (capacity : ℚ), last_update := now }

/-- `TokenBucket.consume(tokens)` at clock value `now`; returns
`(success, wait_time_if_failed)` together with the updated bucket.
Caveat: the denied branch's `needed / b.rate` is total ℚ division, so at
`rate = 0` it yields wait 0 where Python raises `ZeroDivisionError` at line
104; every theorem below therefore either assumes `0 < rate` or uses inputs
whose denials have a positive rate, keeping that divergence inert. -/
def TokenBucket.consume (b : TokenBucket) (now : ℚ) (n : ℤ) : Bool × ℚ × TokenBucket :=
  let elapsed := now - b.last_update
  let tokens := min (b.capacity : ℚ) (b.tokens + elapsed * b.rate)
  if (n : ℚ) ≤ tokens then
    (true, 0, { b with tokens := tokens - (n : ℚ), last_update := now })
  else
    let needed := (n : ℚ) - tokens
    (false, needed / b.rate, { b with tokens := tokens, last_update := now })

/-- Circuit breaker state (`CircuitBreaker.__init__` fields minus the lock;
the config is passed separately to each operation). -/
structure CircuitBreaker where
  state : CircuitState
  failure_count : ℕ
  last_failure_time : Option ℚ
  half_open_calls : ℕ
deriving DecidableEq

/-- Freshly constructed breaker: `CLOSED`, zero counters, no failure time. -/
def CircuitBreaker.init : CircuitBreaker :=
  { state := CircuitState.closed
    failure_count := 0
    last_failure_time := none
    half_open_calls := 0 }

/-- `CircuitBreaker._transition_to(new_state)`. -/
def CircuitBreaker.transition_to (cb : CircuitBreaker) (new_state : CircuitState) :
    CircuitBreaker :=
  match new_state with
  | CircuitState.halfOpen => { cb with state := new_state, half_open_calls := 0 }
  | CircuitState.closed =>
      { cb with state := new_state, failure_count := 0, half_open_calls := 0 }
  | CircuitState.opn => { cb with state := new_state }

/-- `CircuitBreaker.call_allowed()` with `datetime.now()` rendered as the
explicit argument `now`; returns the boolean and the updated breaker. -/
def CircuitBreaker.call_allowed (cb : CircuitBreaker) (cfg : RateLimitConfig) (now : ℚ) :
    Bool × CircuitBreaker :=
  match cb.state with
  | CircuitState.closed => (true, cb)
  | CircuitState.opn =>
    match cb.last_failure_time with
    | some t =>
        if cfg.recovery_timeout ≤ now - t then
          (true, cb.transition_to CircuitState.halfOpen)
        else
          (false, cb)
    | none => (false, cb)
  | CircuitState.halfOpen =>
    if cb.half_open_calls < cfg.half_open_max_calls then
      (true, { cb with half_open_calls := cb.half_open_calls + 1 })
    else
      (false, cb)

/-- `CircuitBreaker.record_success()`. -/
def CircuitBreaker.record_success (cb : CircuitBreaker) : CircuitBreaker :=
  let cb1 :=
    if cb.state = CircuitState.halfOpen then cb.transition_to CircuitState.closed else cb
  { cb1 with failure_count := 0 }

/-- `CircuitBreaker.record_failure()` with `datetime.now()` as `now`. -/
def CircuitBreaker.record_failure (cb : CircuitBreaker) (cfg : RateLimitConfig) (now : ℚ) :
    CircuitBreaker :=
  let cb1 := { cb with failure_count := cb.failure_count + 1, last_failure_time := some now }
  if cb1.state = CircuitState.halfOpen then
    cb1.transition_to CircuitState.opn
  else if cfg.failure_threshold ≤ cb1.failure_count then
    cb1.transition_to CircuitState.opn
  else
    cb1

/-- Mutable limiter state owned by one `RateLimiter`. -/
structure LimiterState where
  bucket : TokenBucket
  breaker : CircuitBreaker
  stats : RateLimitStats
deriving DecidableEq

/-- Environment of one `execute` call: the clock oracle (value of the i-th
clock read) and the work oracle (outcome of the i-th `func` invocation). -/
structure Env (ε α : Type) where
  clock : ℕ → ℚ
  work : ℕ → Except ε α

/-- Outcome of `RateLimiter.execute`.  `circuitOpenErr` is the
"Circuit breaker is open - service unavailable" exception;
`allRetriesFailed` is the fallback `Exception("All retry attempts failed")`
raised when the loop exits with no stored exception; `fuelOut` marks an
execution cut off by exhausted fuel (a non-terminating Python run). -/
inductive ExecResult (ε α : Type) where
  | ok : α → ExecResult ε α
  | err : ε → ExecResult ε α
  | circuitOpenErr : ExecResult ε α
  | allRetriesFailed : ExecResult ε α
  | fuelOut : ExecResult ε α
deriving DecidableEq

/-- The local variables of `execute` threaded through the retry loop:
the limiter state, the next clock-read index `ci`, the number `wi` of `func`
invocations so far, `retry_count`, `backoff`, `last_exception`, and the list
of sleep durations requested so far (rate-limit waits and backoff sleeps,
in program order). -/
structure LoopVars (ε : Type) where
  s : LimiterState
  ci : ℕ
  wi : ℕ
  retry_count : ℕ
  backoff : ℚ
  last_exception : Option ε
  sleeps : List ℚ
deriving DecidableEq

/-- Lines 234-265 of `execute`: the `try` block and its `except` handler,
entered once admission is granted.  Returns `Sum.inl` with the final answer
on success, or `Sum.inr` with the loop variables for the next iteration on a
`func` failure (after stats, breaker and backoff bookkeeping). -/
def RateLimiter.attemptWork (cfg : RateLimitConfig) (env : Env ε α) (v : LoopVars ε) :
    (ExecResult ε α × LoopVars ε) ⊕ LoopVars ε :=
  let stats1 := { v.s.stats with
    total_requests := v.s.stats.total_requests + 1
    last_request_time := some (env.clock v.ci) }
  let v1 := { v with s := { v.s with stats := stats1 }, ci := v.ci + 1, wi := v.wi + 1 }
  match env.work v.wi with
  | Except.ok r =>
    let stats2 := { v1.s.stats with
      successful_requests := v1.s.stats.successful_requests + 1 }
    let breaker2 := v1.s.breaker.record_success
    Sum.inl (ExecResult.ok r, { v1 with s := { v1.s with stats := stats2, breaker := breaker2 } })
  | Except.error e =>
    let retry2 := v1.retry_count + 1
    let stats2 := { v1.s.stats with
      failed_requests := v1.s.stats.failed_requests + 1
      total_retry_attempts := v1.s.stats.total_retry_attempts + 1
      last_failure_time := some (env.clock v1.ci) }
    let breaker2 := v1.s.breaker.record_failure cfg (env.clock (v1.ci + 1))
    let v2 := { v1 with
      s := { v1.s with stats := stats2, breaker := breaker2 }
      ci := v1.ci + 2
      retry_count := retry2
      last_exception := some e }
    if retry2 ≤ cfg.max_retries then
      Sum.inr { v2 with
        sleeps := v2.sleeps ++ [min v2.backoff cfg.max_backoff]
        backoff := v2.backoff * cfg.backoff_multiplier }
    else
      Sum.inr v2

/-- The `while retry_count <= max_retries` loop of `execute`, with explicit
fuel.  One fuel unit is one loop iteration test. -/
def RateLimiter.executeLoop (cfg : RateLimitConfig) (env : Env ε α) :
    ℕ → LoopVars ε → ExecResult ε α × LoopVars ε
  | 0, v => (ExecResult.fuelOut, v)
  | fuel + 1, v =>
    if v.retry_count ≤ cfg.max_retries then
      let c1 := v.s.bucket.consume (env.clock v.ci) 1
      let v1 := { v with s := { v.s with bucket := c1.2.2 }, ci := v.ci + 1 }
      if c1.1 then
        match RateLimiter.attemptWork cfg env v1 with
        | Sum.inl r => r
        | Sum.inr v2 => RateLimiter.executeLoop cfg env fuel v2
      else
        let stats1 := { v1.s.stats with
          rate_limited_requests := v1.s.stats.rate_limited_requests + 1 }
        let v2 := { v1 with
          s := { v1.s with stats := stats1 }
          sleeps := v1.sleeps ++ [c1.2.1] }
        let c2 := v2.s.bucket.consume (env.clock v2.ci) 1
        let v3 := { v2 with s := { v2.s with bucket := c2.2.2 }, ci := v2.ci + 1 }
        if c2.1 then
          match RateLimiter.attemptWork cfg env v3 with
          | Sum.inl r => r
          | Sum.inr v4 => RateLimiter.executeLoop cfg env fuel v4
        else
          RateLimiter.executeLoop cfg env fuel v3
    else
      ((match v.last_exception with
        | some e => ExecResult.err e
        | none => ExecResult.allRetriesFailed), v)

/-- `RateLimiter.execute(func)`: the up-front circuit-breaker gate followed
by the retry loop.  The gate samples clock read 0 (used only when the breaker
is `OPEN` with a recorded failure time); the loop starts at read index 1. -/
def RateLimiter.execute (cfg : RateLimitConfig) (env : Env ε α) (fuel : ℕ)
    (s : LimiterState) : ExecResult ε α × LoopVars ε :=
  let ca := s.breaker.call_allowed cfg (env.clock 0)
  if ca.1 then
    RateLimiter.executeLoop cfg env fuel
      { s := { s with breaker := ca.2 }
        ci := 1
        wi := 0
        retry_count := 0
        backoff := cfg.initial_backoff
        last_exception := none
        sleeps := [] }
  else
    let stats1 := { s.stats with
      circuit_breaker_rejections := s.stats.circuit_breaker_rejections + 1 }
    (ExecResult.circuitOpenErr,
      { s := { s with breaker := ca.2, stats := stats1 }
        ci := 1
        wi := 0
        retry_count := 0
        backoff := cfg.initial_backoff
        last_exception := none
        sleeps := [] })

def RateLimiter.initVars {ε : Type} (cfg : RateLimitConfig) (s : LimiterState)
    (cb : CircuitBreaker) : LoopVars ε :=
  { s := { s with breaker := cb }
    ci := 1
    wi := 0
    retry_count := 0
    backoff := cfg.initial_backoff
    last_exception := none
    sleeps := [] }

/-- Fold of `record_failure` over a list of failure timestamps. -/
def CircuitBreaker.recordFailures (cb : CircuitBreaker) (cfg : RateLimitConfig) :
    List ℚ → CircuitBreaker
  | [] => cb
  | t :: ts => (cb.record_failure cfg t).recordFailures cfg ts

/-- Fold of `call_allowed` over a list of check times, counting how many
checks were granted. -/
def CircuitBreaker.runCallAllowed (cb : CircuitBreaker) (cfg : RateLimitConfig) :
    List ℚ → ℕ × CircuitBreaker
  | [] => (0, cb)
  | t :: ts =>
    let r := cb.call_allowed cfg t
    let rest := r.2.runCallAllowed cfg ts
    ((if r.1 then 1 else 0) + rest.1, rest.2)

/-- Fold of `consume` over a list of (clock value, requested tokens) pairs. -/
def TokenBucket.runConsume (b : TokenBucket) : List (ℚ × ℤ) → TokenBucket
  | [] => b
  | p :: ps => ((b.consume p.1 p.2).2.2).runConsume ps

/-- A fixed concrete bucket used by the `consume_spec` witness. -/
def bucketW : TokenBucket := { rate := 2, capacity := 10, tokens := 3, last_update := 0 }

/-- A fixed open breaker, failed at time 5, used by witnesses. -/
def openBreakerW : CircuitBreaker :=
  { state := CircuitState.opn, failure_count := 5,
    last_failure_time := some 5, half_open_calls := 0 }

/-- A fixed configuration used by witnesses. -/
def cfgW : RateLimitConfig :=
  { requests_per_second := 10, burst_size := 20, max_retries := 3,
    initial_backoff := 1, max_backoff := 60, backoff_multiplier := 2,
    failure_threshold := 5, recovery_timeout := 60, half_open_max_calls := 3 }

/-- Concrete limiter state used by the `circuit_open_fast_fail` witness. -/
def openStateW : LimiterState :=
  { bucket := bucketW, breaker := openBreakerW, stats := RateLimitStats.init }

/-- Concrete environment used by the `circuit_open_fast_fail` witness. -/
def openEnvW : Env Unit Unit :=
  { clock := fun _ => 10, work := fun _ => Except.error () }

def cexBucket : TokenBucket := { rate := 1, capacity := 5, tokens := 5, last_update := 0 }

def cexCfg : RateLimitConfig :=
  { requests_per_second := 1, burst_size := 5, max_retries := 1,
    initial_backoff := 1, max_backoff := 60, backoff_multiplier := 2,
    failure_threshold := 5, recovery_timeout := 60, half_open_max_calls := 3 }

def cexEnv : Env Unit Unit := { clock := fun _ => 0, work := fun _ => Except.error () }

def cexState : LimiterState :=
  { bucket := cexBucket, breaker := CircuitBreaker.init, stats := RateLimitStats.init }

/-- A zero-capacity bucket with a positive refill rate: every refill is
`min(0, ...) ≤ 0 < 1`, so `consume(1)` is always denied, while the positive
rate keeps the denied branch's `needed / rate` an ordinary division. -/
def bugBucket : TokenBucket := { rate := 1, capacity := 0, tokens := 0, last_update := 0 }

def bugCfg : RateLimitConfig :=
  { requests_per_second := 1, burst_size := 0, max_retries := 1,
    initial_backoff := 1, max_backoff := 60, backoff_multiplier := 2,
    failure_threshold := 5, recovery_timeout := 60, half_open_max_calls := 3 }

def bugState : LimiterState :=
  { bucket := bugBucket, breaker := CircuitBreaker.init, stats := RateLimitStats.init }

/-! ### Lemmas -/

/-- `consume` in the admitted case: refilled balance covers the request. -/
theorem TokenBucket.consume_admitted (b : TokenBucket) (now : ℚ) (n : ℤ)
    (h : (n : ℚ) ≤ min (b.capacity : ℚ) (b.tokens + (now - b.last_update) * b.rate)) :
    b.consume now n =
      (true, 0,
        { b with
          tokens := min (b.capacity : ℚ) (b.tokens + (now - b.last_update) * b.rate) - (n : ℚ)
          last_update := now }) := by
  simp only [TokenBucket.consume]
  rw [if_pos h]

/-- `consume` in the denied case: refilled balance falls short. -/
theorem TokenBucket.consume_denied (b : TokenBucket) (now : ℚ) (n : ℤ)
    (h : min (b.capacity : ℚ) (b.tokens + (now - b.last_update) * b.rate) < (n : ℚ)) :
    b.consume now n =
      (false,
        ((n : ℚ) - min (b.capacity : ℚ) (b.tokens + (now - b.last_update) * b.rate)) / b.rate,
        { b with
          tokens := min (b.capacity : ℚ) (b.tokens + (now - b.last_update) * b.rate)
          last_update := now }) := by
  simp only [TokenBucket.consume]
  rw [if_neg (not_le.mpr h)]

/-- The refill step never lowers an in-range balance when the clock moved
forward. -/
theorem TokenBucket.refill_ge (b : TokenBucket) (now : ℚ)
    (hr : 0 ≤ b.rate) (hcap : b.tokens ≤ (b.capacity : ℚ)) (ht : b.last_update ≤ now) :
    b.tokens ≤ min (b.capacity : ℚ) (b.tokens + (now - b.last_update) * b.rate) := by
  have hnn : 0 ≤ (now - b.last_update) * b.rate := mul_nonneg (by linarith) hr
  rw [le_min_iff]
  exact ⟨hcap, by linarith⟩

/-- `consume` never changes `rate` or `capacity`. -/
theorem TokenBucket.consume_rate_capacity (b : TokenBucket) (now : ℚ) (n : ℤ) :
    (b.consume now n).2.2.rate = b.rate ∧ (b.consume now n).2.2.capacity = b.capacity := by
  simp only [TokenBucket.consume]
  split <;> exact ⟨rfl, rfl⟩

/-- One `consume` call preserves `0 ≤ tokens ≤ capacity` when the request is
nonnegative, the rate is nonnegative, and the clock did not run backwards. -/
theorem TokenBucket.consume_preserves (b : TokenBucket) (now : ℚ) (n : ℤ)
    (hr : 0 ≤ b.rate) (hcap0 : (0 : ℚ) ≤ (b.capacity : ℚ))
    (h0 : 0 ≤ b.tokens) (h1 : b.tokens ≤ (b.capacity : ℚ))
    (hn : 0 ≤ n) (ht : b.last_update ≤ now) :
    0 ≤ (b.consume now n).2.2.tokens ∧
    (b.consume now n).2.2.tokens ≤ (b.capacity : ℚ) ∧
    (b.consume now n).2.2.last_update = now := by
  have hfill0 : 0 ≤ min (b.capacity : ℚ) (b.tokens + (now - b.last_update) * b.rate) := by
    have : 0 ≤ (now - b.last_update) * b.rate := mul_nonneg (by linarith) hr
    rw [le_min_iff]
    exact ⟨hcap0, by linarith⟩
  have hfill1 : min (b.capacity : ℚ) (b.tokens + (now - b.last_update) * b.rate)
      ≤ (b.capacity : ℚ) := min_le_left _ _
  by_cases h : (n : ℚ) ≤ min (b.capacity : ℚ) (b.tokens + (now - b.last_update) * b.rate)
  · rw [TokenBucket.consume_admitted b now n h]
    have hnq : (0 : ℚ) ≤ (n : ℚ) := by exact_mod_cast hn
    exact ⟨by simp only; linarith, by simp only; linarith, rfl⟩
  · rw [TokenBucket.consume_denied b now n (not_le.mp h)]
    exact ⟨by simp only; linarith, by simp only; linarith, rfl⟩

theorem CircuitBreaker.recordFailures_append (cb : CircuitBreaker) (cfg : RateLimitConfig)
    (l1 l2 : List ℚ) :
    cb.recordFailures cfg (l1 ++ l2) = (cb.recordFailures cfg l1).recordFailures cfg l2 := by
  induction l1 generalizing cb with
  | nil => rfl
  | cons t ts ih =>
      simp only [List.cons_append, CircuitBreaker.recordFailures]
      exact ih _

/-- A failure recorded in `Closed` keeps the state `Closed` while the new
count stays below the threshold, and just counts the failure. -/
theorem CircuitBreaker.record_failure_closed_sub (cb : CircuitBreaker)
    (cfg : RateLimitConfig) (t : ℚ)
    (hs : cb.state = CircuitState.closed)
    (hlt : cb.failure_count + 1 < cfg.failure_threshold) :
    cb.record_failure cfg t =
      { cb with failure_count := cb.failure_count + 1, last_failure_time := some t } := by
  have h2 : ¬ cfg.failure_threshold ≤ cb.failure_count + 1 := by omega
  simp [CircuitBreaker.record_failure, hs, h2]

/-- A failure reaching the threshold in `Closed` opens the circuit. -/
theorem CircuitBreaker.record_failure_closed_hits (cb : CircuitBreaker)
    (cfg : RateLimitConfig) (t : ℚ)
    (hs : cb.state = CircuitState.closed)
    (hge : cfg.failure_threshold ≤ cb.failure_count + 1) :
    (cb.record_failure cfg t).state = CircuitState.opn := by
  simp [CircuitBreaker.record_failure, hs, hge, CircuitBreaker.transition_to]

/-- Below-threshold failure runs stay `Closed` and count exactly. -/
theorem CircuitBreaker.recordFailures_closed (cfg : RateLimitConfig) (ts : List ℚ) :
    ∀ cb : CircuitBreaker, cb.state = CircuitState.closed →
    cb.failure_count + ts.length < cfg.failure_threshold →
    (cb.recordFailures cfg ts).state = CircuitState.closed ∧
    (cb.recordFailures cfg ts).failure_count = cb.failure_count + ts.length := by
  induction ts with
  | nil => intro cb hs _; exact ⟨hs, rfl⟩
  | cons t ts ih =>
      intro cb hs hlt
      simp only [List.length_cons] at hlt
      have hstep := CircuitBreaker.record_failure_closed_sub cb cfg t hs (by omega)
      have hrec := ih (cb.record_failure cfg t)
        (by rw [hstep]; exact hs) (by rw [hstep]; simp only; omega)
      simp only [CircuitBreaker.recordFailures, List.length_cons]
      refine ⟨hrec.1, ?_⟩
      rw [hrec.2, hstep]
      simp only
      omega

/-- In `HalfOpen`, admission checks never leave the state, every grant
increments `halfOpenCalls`, and grants stop at `halfOpenMaxCalls`. -/
theorem CircuitBreaker.runCallAllowed_halfOpen (cfg : RateLimitConfig) (ts : List ℚ) :
    ∀ cb : CircuitBreaker, cb.state = CircuitState.halfOpen →
    cb.half_open_calls ≤ cfg.half_open_max_calls →
    (cb.runCallAllowed cfg ts).2.state = CircuitState.halfOpen ∧
    (cb.runCallAllowed cfg ts).1 + cb.half_open_calls ≤ cfg.half_open_max_calls ∧
    (cb.runCallAllowed cfg ts).2.half_open_calls ≤ cfg.half_open_max_calls := by
  induction ts with
  | nil => intro cb hs hle; exact ⟨hs, by simpa [CircuitBreaker.runCallAllowed] using hle, hle⟩
  | cons t ts ih =>
      intro cb hs hle
      by_cases hlt : cb.half_open_calls < cfg.half_open_max_calls
      · have hstep : cb.call_allowed cfg t =
            (true, { cb with half_open_calls := cb.half_open_calls + 1 }) := by
          simp [CircuitBreaker.call_allowed, hs, hlt]
        have hrec := ih { cb with half_open_calls := cb.half_open_calls + 1 }
          (by exact hs) (by simp only; omega)
        simp only [CircuitBreaker.runCallAllowed, hstep]
        refine ⟨hrec.1, ?_, hrec.2.2⟩
        have := hrec.2.1
        simp only at this
        simp
        omega
      · have hstep : cb.call_allowed cfg t = (false, cb) := by
          simp [CircuitBreaker.call_allowed, hs, hlt]
        have hrec := ih cb hs hle
        simp only [CircuitBreaker.runCallAllowed, hstep]
        refine ⟨hrec.1, ?_, hrec.2.2⟩
        have := hrec.2.1
        simp
        omega

/-- A denied admission check leaves the breaker unchanged. -/
theorem CircuitBreaker.call_allowed_false_frame (cb : CircuitBreaker)
    (cfg : RateLimitConfig) (now : ℚ)
    (h : (cb.call_allowed cfg now).1 = false) :
    (cb.call_allowed cfg now).2 = cb := by
  unfold CircuitBreaker.call_allowed at h ⊢
  match hs : cb.state with
  | CircuitState.closed => simp [hs] at h
  | CircuitState.opn =>
      simp only [hs] at h ⊢
      match hl : cb.last_failure_time with
      | some t =>
          simp only [hl] at h ⊢
          by_cases hc : cfg.recovery_timeout ≤ now - t
          · rw [if_pos hc] at h; cases h
          · rw [if_neg hc]
      | none => rfl
  | CircuitState.halfOpen =>
      simp only [hs] at h ⊢
      by_cases hc : cb.half_open_calls < cfg.half_open_max_calls
      · rw [if_pos hc] at h; cases h
      · rw [if_neg hc]

theorem executeLoop_step_fail_sleep (cfg : RateLimitConfig) (env : Env ε α) (f : ℕ → ε)
    (hw : ∀ i, env.work i = Except.error (f i))
    (fuel : ℕ) (v : LoopVars ε)
    (hrc : v.retry_count ≤ cfg.max_retries)
    (hsleep : v.retry_count + 1 ≤ cfg.max_retries)
    (hadm : ((1 : ℤ) : ℚ) ≤ min (v.s.bucket.capacity : ℚ)
      (v.s.bucket.tokens + (env.clock v.ci - v.s.bucket.last_update) * v.s.bucket.rate)) :
    RateLimiter.executeLoop cfg env (fuel + 1) v =
      RateLimiter.executeLoop cfg env fuel
        { s :=
            { bucket :=
                { rate := v.s.bucket.rate
                  capacity := v.s.bucket.capacity
                  tokens := min (v.s.bucket.capacity : ℚ)
                    (v.s.bucket.tokens
                      + (env.clock v.ci - v.s.bucket.last_update) * v.s.bucket.rate)
                    - ((1 : ℤ) : ℚ)
                  last_update := env.clock v.ci }
              breaker := v.s.breaker.record_failure cfg (env.clock (v.ci + 3))
              stats :=
                { total_requests := v.s.stats.total_requests + 1
                  successful_requests := v.s.stats.successful_requests
                  failed_requests := v.s.stats.failed_requests + 1
                  rate_limited_requests := v.s.stats.rate_limited_requests
                  circuit_breaker_rejections := v.s.stats.circuit_breaker_rejections
                  total_retry_attempts := v.s.stats.total_retry_attempts + 1
                  last_request_time := some (env.clock (v.ci + 1))
                  last_failure_time := some (env.clock (v.ci + 2)) } }
          ci := v.ci + 4
          wi := v.wi + 1
          retry_count := v.retry_count + 1
          backoff := v.backoff * cfg.backoff_multiplier
          last_exception := some (f v.wi)
          sleeps := v.sleeps ++ [min v.backoff cfg.max_backoff] } := by
  have hcons := TokenBucket.consume_admitted v.s.bucket (env.clock v.ci) 1 hadm
  simp only [RateLimiter.executeLoop, RateLimiter.attemptWork, hcons, hw, hrc, hsleep]
  rfl

theorem executeLoop_step_fail_last (cfg : RateLimitConfig) (env : Env ε α) (f : ℕ → ε)
    (hw : ∀ i, env.work i = Except.error (f i))
    (fuel : ℕ) (v : LoopVars ε)
    (hrc : v.retry_count ≤ cfg.max_retries)
    (hlast : cfg.max_retries < v.retry_count + 1)
    (hadm : ((1 : ℤ) : ℚ) ≤ min (v.s.bucket.capacity : ℚ)
      (v.s.bucket.tokens + (env.clock v.ci - v.s.bucket.last_update) * v.s.bucket.rate)) :
    RateLimiter.executeLoop cfg env (fuel + 1) v =
      RateLimiter.executeLoop cfg env fuel
        { s :=
            { bucket :=
                { rate := v.s.bucket.rate
                  capacity := v.s.bucket.capacity
                  tokens := min (v.s.bucket.capacity : ℚ)
                    (v.s.bucket.tokens
                      + (env.clock v.ci - v.s.bucket.last_update) * v.s.bucket.rate)
                    - ((1 : ℤ) : ℚ)
                  last_update := env.clock v.ci }
              breaker := v.s.breaker.record_failure cfg (env.clock (v.ci + 3))
              stats :=
                { total_requests := v.s.stats.total_requests + 1
                  successful_requests := v.s.stats.successful_requests
                  failed_requests := v.s.stats.failed_requests + 1
                  rate_limited_requests := v.s.stats.rate_limited_requests
                  circuit_breaker_rejections := v.s.stats.circuit_breaker_rejections
                  total_retry_attempts := v.s.stats.total_retry_attempts + 1
                  last_request_time := some (env.clock (v.ci + 1))
                  last_failure_time := some (env.clock (v.ci + 2)) } }
          ci := v.ci + 4
          wi := v.wi + 1
          retry_count := v.retry_count + 1
          backoff := v.backoff
          last_exception := some (f v.wi)
          sleeps := v.sleeps } := by
  have hcons := TokenBucket.consume_admitted v.s.bucket (env.clock v.ci) 1 hadm
  have hns : ¬ (v.retry_count + 1 ≤ cfg.max_retries) := by omega
  simp only [RateLimiter.executeLoop, RateLimiter.attemptWork, hcons, hw, hrc, hns]
  rfl

theorem executeLoop_exit (cfg : RateLimitConfig) (env : Env ε α) (fuel : ℕ)
    (v : LoopVars ε) (e : ε)
    (h : cfg.max_retries < v.retry_count)
    (he : v.last_exception = some e) :
    RateLimiter.executeLoop cfg env (fuel + 1) v = (ExecResult.err e, v) := by
  have hn : ¬ (v.retry_count ≤ cfg.max_retries) := by omega
  simp only [RateLimiter.executeLoop, hn, he]
  rfl

theorem backoff_schedule_shift (B M q : ℚ) (k : ℕ) :
    (List.range (k + 1)).map (fun j => min (B * q ^ j) M) =
      min B M :: (List.range k).map (fun j => min (B * q * q ^ j) M) := by
  rw [List.range_succ_eq_map, List.map_cons, List.map_map]
  congr 1
  · rw [pow_zero, mul_one]
  · congr 1
    funext j
    simp only [Function.comp_apply]
    congr 1
    rw [pow_succ]
    ring

theorem executeLoop_step_fail (cfg : RateLimitConfig) (env : Env ε α) (f : ℕ → ε)
    (hw : ∀ i, env.work i = Except.error (f i))
    (fuel : ℕ) (v : LoopVars ε)
    (hrc : v.retry_count ≤ cfg.max_retries)
    (hadm : ((1 : ℤ) : ℚ) ≤ min (v.s.bucket.capacity : ℚ)
      (v.s.bucket.tokens + (env.clock v.ci - v.s.bucket.last_update) * v.s.bucket.rate)) :
    ∃ v2 : LoopVars ε,
      RateLimiter.executeLoop cfg env (fuel + 1) v = RateLimiter.executeLoop cfg env fuel v2 ∧
      v2.retry_count = v.retry_count + 1 ∧
      v2.wi = v.wi + 1 ∧
      v2.ci = v.ci + 4 ∧
      v2.last_exception = some (f v.wi) ∧
      v2.s.stats.total_retry_attempts = v.s.stats.total_retry_attempts + 1 ∧
      v2.s.bucket.rate = v.s.bucket.rate ∧
      v2.s.bucket.capacity = v.s.bucket.capacity ∧
      v2.s.bucket.tokens = min (v.s.bucket.capacity : ℚ)
        (v.s.bucket.tokens + (env.clock v.ci - v.s.bucket.last_update) * v.s.bucket.rate)
        - ((1 : ℤ) : ℚ) ∧
      v2.s.bucket.last_update = env.clock v.ci ∧
      (v.retry_count + 1 ≤ cfg.max_retries →
        v2.backoff = v.backoff * cfg.backoff_multiplier ∧
        v2.sleeps = v.sleeps ++ [min v.backoff cfg.max_backoff]) ∧
      (cfg.max_retries < v.retry_count + 1 →
        v2.backoff = v.backoff ∧ v2.sleeps = v.sleeps) := by
  by_cases hsleep : v.retry_count + 1 ≤ cfg.max_retries
  · refine ⟨_, executeLoop_step_fail_sleep cfg env f hw fuel v hrc hsleep hadm,
      rfl, rfl, rfl, rfl, rfl, rfl, rfl, rfl, rfl, fun _ => ⟨rfl, rfl⟩, fun h => ?_⟩
    omega
  · refine ⟨_, executeLoop_step_fail_last cfg env f hw fuel v hrc (by omega) hadm,
      rfl, rfl, rfl, rfl, rfl, rfl, rfl, rfl, rfl, fun h => ?_, fun _ => ⟨rfl, rfl⟩⟩
    omega

theorem executeLoop_allFail (cfg : RateLimitConfig) (env : Env ε α) (f : ℕ → ε)
    (hw : ∀ i, env.work i = Except.error (f i)) (hmono : Monotone env.clock) :
    ∀ (n : ℕ) (fuel : ℕ) (v : LoopVars ε),
    1 ≤ n →
    v.retry_count + n = cfg.max_retries + 1 →
    n + 1 ≤ fuel →
    0 ≤ v.s.bucket.rate →
    v.s.bucket.tokens ≤ (v.s.bucket.capacity : ℚ) →
    (n : ℚ) ≤ v.s.bucket.tokens →
    v.s.bucket.last_update ≤ env.clock v.ci →
    (RateLimiter.executeLoop cfg env fuel v).1 = ExecResult.err (f (v.wi + n - 1)) ∧
    (RateLimiter.executeLoop cfg env fuel v).2.wi = v.wi + n ∧
    (RateLimiter.executeLoop cfg env fuel v).2.s.stats.total_retry_attempts
      = v.s.stats.total_retry_attempts + n ∧
    (RateLimiter.executeLoop cfg env fuel v).2.sleeps
      = v.sleeps ++ (List.range (n - 1)).map
          (fun j => min (v.backoff * cfg.backoff_multiplier ^ j) cfg.max_backoff) ∧
    (RateLimiter.executeLoop cfg env fuel v).2.backoff
      = v.backoff * cfg.backoff_multiplier ^ (n - 1) := by
  intro n
  induction n with
  | zero => intro fuel v h1; omega
  | succ k ih =>
      intro fuel v _ hrn hfuel hr hcap htok hlu
      obtain ⟨m, rfl⟩ : ∃ m, fuel = m + 1 := ⟨fuel - 1, by omega⟩
      have hrc : v.retry_count ≤ cfg.max_retries := by omega
      have hfill := TokenBucket.refill_ge v.s.bucket (env.clock v.ci) hr hcap hlu
      have hadm : ((1 : ℤ) : ℚ) ≤ min (v.s.bucket.capacity : ℚ)
          (v.s.bucket.tokens + (env.clock v.ci - v.s.bucket.last_update) * v.s.bucket.rate) := by
        have hk1 : (1 : ℚ) ≤ ((k + 1 : ℕ) : ℚ) := by
          exact_mod_cast Nat.succ_le_succ (Nat.zero_le k)
        push_cast
        push_cast at htok
        linarith
      obtain ⟨v2, heq, hrc2, hwi2, hci2, hle2, htra2, hrate2, hcap2, htok2, hlu2,
        hslp, hnoslp⟩ := executeLoop_step_fail cfg env f hw m v hrc hadm
      rw [heq]
      have hminle : min (v.s.bucket.capacity : ℚ)
          (v.s.bucket.tokens + (env.clock v.ci - v.s.bucket.last_update) * v.s.bucket.rate)
          ≤ (v.s.bucket.capacity : ℚ) := min_le_left _ _
      by_cases hk0 : k = 0
      · subst hk0
        have hfin := hnoslp (by omega)
        obtain ⟨m2, rfl⟩ : ∃ m2, m = m2 + 1 := ⟨m - 1, by omega⟩
        rw [executeLoop_exit cfg env m2 v2 (f v.wi) (by omega) hle2]
        refine ⟨?_, ?_, ?_, ?_, ?_⟩
        · have : v.wi = v.wi + 1 - 1 := by omega
          rw [← this]
        · rw [hwi2]
        · rw [htra2]
        · rw [hfin.2]
          simp
        · rw [hfin.1]
          simp
      · have hsleep : v.retry_count + 1 ≤ cfg.max_retries := by omega
        have hs := hslp hsleep
        have hcap2q : v2.s.bucket.tokens ≤ (v2.s.bucket.capacity : ℚ) := by
          rw [htok2, hcap2]
          push_cast
          linarith
        have htok2q : ((k : ℕ) : ℚ) ≤ v2.s.bucket.tokens := by
          rw [htok2]
          have hup : ((k + 1 : ℕ) : ℚ) ≤ min (v.s.bucket.capacity : ℚ)
              (v.s.bucket.tokens + (env.clock v.ci - v.s.bucket.last_update) * v.s.bucket.rate) :=
            le_trans htok hfill
          push_cast at hup ⊢
          linarith
        have hlu2q : v2.s.bucket.last_update ≤ env.clock v2.ci := by
          rw [hlu2, hci2]
          exact hmono (by omega : v.ci ≤ v.ci + 4)
        have hih := ih m v2 (by omega) (by omega) (by omega)
          (by rw [hrate2]; exact hr) hcap2q htok2q hlu2q
        refine ⟨?_, ?_, ?_, ?_, ?_⟩
        · rw [hih.1, hwi2]
          have : v.wi + 1 + k - 1 = v.wi + (k + 1) - 1 := by omega
          rw [this]
        · rw [hih.2.1, hwi2]
          omega
        · rw [hih.2.2.1, htra2]
          omega
        · rw [hih.2.2.2.1, hs.2, hs.1]
          obtain ⟨k2, rfl⟩ : ∃ k2, k = k2 + 1 := ⟨k - 1, by omega⟩
          rw [List.append_assoc]
          congr 1
          rw [show k2 + 1 + 1 - 1 = k2 + 1 from rfl, show k2 + 1 - 1 = k2 from rfl]
          rw [backoff_schedule_shift v.backoff cfg.max_backoff cfg.backoff_multiplier k2]
          simp
        · rw [hih.2.2.2.2, hs.1]
          obtain ⟨k2, rfl⟩ : ∃ k2, k = k2 + 1 := ⟨k - 1, by omega⟩
          rw [show k2 + 1 + 1 - 1 = k2 + 1 from rfl, show k2 + 1 - 1 = k2 from rfl]
          rw [pow_succ]
          ring

theorem execute_allowed_unfold (cfg : RateLimitConfig) (env : Env ε α) (fuel : ℕ)
    (s : LimiterState)
    (hallow : (s.breaker.call_allowed cfg (env.clock 0)).1 = true) :
    RateLimiter.execute cfg env fuel s =
      RateLimiter.executeLoop cfg env fuel
        (RateLimiter.initVars cfg s (s.breaker.call_allowed cfg (env.clock 0)).2) := by
  simp only [RateLimiter.execute, RateLimiter.initVars, hallow, if_true]

theorem executeLoop_step_denied_eq (cfg : RateLimitConfig) (env : Env ε α)
    (fuel : ℕ) (v : LoopVars ε)
    (hrc : v.retry_count ≤ cfg.max_retries)
    (hden1 : min (v.s.bucket.capacity : ℚ)
        (v.s.bucket.tokens + (env.clock v.ci - v.s.bucket.last_update) * v.s.bucket.rate)
      < ((1 : ℤ) : ℚ))
    (hden2 : min (v.s.bucket.capacity : ℚ)
        (min (v.s.bucket.capacity : ℚ)
          (v.s.bucket.tokens + (env.clock v.ci - v.s.bucket.last_update) * v.s.bucket.rate)
         + (env.clock (v.ci + 1) - env.clock v.ci) * v.s.bucket.rate)
      < ((1 : ℤ) : ℚ)) :
    RateLimiter.executeLoop cfg env (fuel + 1) v =
      RateLimiter.executeLoop cfg env fuel
        { s :=
            { bucket :=
                { rate := v.s.bucket.rate
                  capacity := v.s.bucket.capacity
                  tokens := min (v.s.bucket.capacity : ℚ)
                    (min (v.s.bucket.capacity : ℚ)
                      (v.s.bucket.tokens
                        + (env.clock v.ci - v.s.bucket.last_update) * v.s.bucket.rate)
                     + (env.clock (v.ci + 1) - env.clock v.ci) * v.s.bucket.rate)
                  last_update := env.clock (v.ci + 1) }
              breaker := v.s.breaker
              stats := { v.s.stats with
                rate_limited_requests := v.s.stats.rate_limited_requests + 1 } }
          ci := v.ci + 2
          wi := v.wi
          retry_count := v.retry_count
          backoff := v.backoff
          last_exception := v.last_exception
          sleeps := v.sleeps ++
            [(((1 : ℤ) : ℚ)
              - min (v.s.bucket.capacity : ℚ)
                  (v.s.bucket.tokens
                    + (env.clock v.ci - v.s.bucket.last_update) * v.s.bucket.rate))
              / v.s.bucket.rate] } := by
  have hc1 := TokenBucket.consume_denied v.s.bucket (env.clock v.ci) 1 hden1
  have hc2 := TokenBucket.consume_denied
    { rate := v.s.bucket.rate
      capacity := v.s.bucket.capacity
      tokens := min (v.s.bucket.capacity : ℚ)
        (v.s.bucket.tokens + (env.clock v.ci - v.s.bucket.last_update) * v.s.bucket.rate)
      last_update := env.clock v.ci }
    (env.clock (v.ci + 1)) 1 hden2
  simp only [RateLimiter.executeLoop, hrc, hc1, hc2]
  rfl

theorem executeLoop_step_denied (cfg : RateLimitConfig) (env : Env ε α)
    (fuel : ℕ) (v : LoopVars ε)
    (hrc : v.retry_count ≤ cfg.max_retries)
    (hden1 : min (v.s.bucket.capacity : ℚ)
        (v.s.bucket.tokens + (env.clock v.ci - v.s.bucket.last_update) * v.s.bucket.rate)
      < ((1 : ℤ) : ℚ))
    (hden2 : min (v.s.bucket.capacity : ℚ)
        (min (v.s.bucket.capacity : ℚ)
          (v.s.bucket.tokens + (env.clock v.ci - v.s.bucket.last_update) * v.s.bucket.rate)
         + (env.clock (v.ci + 1) - env.clock v.ci) * v.s.bucket.rate)
      < ((1 : ℤ) : ℚ)) :
    ∃ v3 : LoopVars ε,
      RateLimiter.executeLoop cfg env (fuel + 1) v = RateLimiter.executeLoop cfg env fuel v3 ∧
      v3.retry_count = v.retry_count ∧
      v3.wi = v.wi ∧
      v3.last_exception = v.last_exception ∧
      v3.s.stats.total_retry_attempts = v.s.stats.total_retry_attempts ∧
      v3.s.stats.rate_limited_requests = v.s.stats.rate_limited_requests + 1 ∧
      v3.s.bucket.rate = v.s.bucket.rate ∧
      v3.s.bucket.capacity = v.s.bucket.capacity ∧
      v3.s.bucket.tokens = min (v.s.bucket.capacity : ℚ)
        (min (v.s.bucket.capacity : ℚ)
          (v.s.bucket.tokens + (env.clock v.ci - v.s.bucket.last_update) * v.s.bucket.rate)
         + (env.clock (v.ci + 1) - env.clock v.ci) * v.s.bucket.rate) :=
  ⟨_, executeLoop_step_denied_eq cfg env fuel v hrc hden1 hden2,
    rfl, rfl, rfl, rfl, rfl, rfl, rfl, rfl⟩

/-- When the bucket's capacity is below one token, every refill
`min(capacity, ...)` stays below 1, so `consume(1)` is denied forever —
whatever the rate and the clock, and with no division by zero when the rate
is positive.  The retry loop of `execute` then spins on the rate-limited
`continue` path: each iteration increments only `rateLimitedRequests`, never
invoking `func`, never touching `retryCount` or `totalRetryAttempts`, and the
loop never exits on its own. -/
theorem executeLoop_starvation (cfg : RateLimitConfig) (env : Env ε α) :
    ∀ (fuel : ℕ) (v : LoopVars ε),
    v.retry_count ≤ cfg.max_retries →
    (v.s.bucket.capacity : ℚ) < 1 →
    (RateLimiter.executeLoop cfg env fuel v).1 = ExecResult.fuelOut ∧
    (RateLimiter.executeLoop cfg env fuel v).2.wi = v.wi ∧
    (RateLimiter.executeLoop cfg env fuel v).2.retry_count = v.retry_count ∧
    (RateLimiter.executeLoop cfg env fuel v).2.s.stats.total_retry_attempts
      = v.s.stats.total_retry_attempts ∧
    (RateLimiter.executeLoop cfg env fuel v).2.s.stats.rate_limited_requests
      = v.s.stats.rate_limited_requests + fuel := by
  intro fuel
  induction fuel with
  | zero => intro v _ _; exact ⟨rfl, rfl, rfl, rfl, rfl⟩
  | succ m ih =>
      intro v hrc hcap
      have hmin1 : min (v.s.bucket.capacity : ℚ)
          (v.s.bucket.tokens + (env.clock v.ci - v.s.bucket.last_update) * v.s.bucket.rate)
          < ((1 : ℤ) : ℚ) := by
        push_cast
        exact lt_of_le_of_lt (min_le_left _ _) hcap
      have hmin2 : min (v.s.bucket.capacity : ℚ)
          (min (v.s.bucket.capacity : ℚ)
            (v.s.bucket.tokens + (env.clock v.ci - v.s.bucket.last_update) * v.s.bucket.rate)
           + (env.clock (v.ci + 1) - env.clock v.ci) * v.s.bucket.rate)
          < ((1 : ℤ) : ℚ) := by
        push_cast
        exact lt_of_le_of_lt (min_le_left _ _) hcap
      obtain ⟨v3, heq, hrc3, hwi3, _, htra3, hrl3, hrate3, hcap3, htok3⟩ :=
        executeLoop_step_denied cfg env m v hrc hmin1 hmin2
      rw [heq]
      have hrec := ih v3 (by omega) (by rw [hcap3]; exact hcap)
      refine ⟨hrec.1, ?_, ?_, ?_, ?_⟩
      · rw [hrec.2.1, hwi3]
      · rw [hrec.2.2.1, hrc3]
      · rw [hrec.2.2.2.1, htra3]
      · rw [hrec.2.2.2.2, hrl3]
        omega

/-! ### Claim theorems, counterexamples and witnesses -/

/-- Claim C7: every `consume(n)` call with `n ≥ 0` and a positive rate first
refills to `min(capacity, tokens + elapsed * rate)` and stamps
`lastUpdate = now`; then, if the refilled balance covers `n`, it subtracts
exactly `n` and returns `(true, 0)`; otherwise it returns
`(false, (n - tokens) / rate)` with a nonnegative wait time and leaves the
balance unchanged past the refill. -/
theorem consume_spec (b : TokenBucket) (now : ℚ) (n : ℤ)
    (hn : 0 ≤ n) (hr : 0 < b.rate) :
    ((b.consume now n).2.2.last_update = now) ∧
    ((n : ℚ) ≤ min (b.capacity : ℚ) (b.tokens + (now - b.last_update) * b.rate) →
      b.consume now n =
        (true, 0,
          { b with
            tokens :=
              min (b.capacity : ℚ) (b.tokens + (now - b.last_update) * b.rate) - (n : ℚ)
            last_update := now })) ∧
    (min (b.capacity : ℚ) (b.tokens + (now - b.last_update) * b.rate) < (n : ℚ) →
      b.consume now n =
        (false,
          ((n : ℚ) - min (b.capacity : ℚ) (b.tokens + (now - b.last_update) * b.rate)) / b.rate,
          { b with
            tokens := min (b.capacity : ℚ) (b.tokens + (now - b.last_update) * b.rate)
            last_update := now }) ∧
      0 ≤ ((n : ℚ) - min (b.capacity : ℚ) (b.tokens + (now - b.last_update) * b.rate)) / b.rate) := by
  refine ⟨?_, ?_, ?_⟩
  · by_cases h : (n : ℚ) ≤ min (b.capacity : ℚ) (b.tokens + (now - b.last_update) * b.rate)
    · rw [TokenBucket.consume_admitted b now n h]
    · rw [TokenBucket.consume_denied b now n (not_le.mp h)]
  · intro h
    exact TokenBucket.consume_admitted b now n h
  · intro h
    refine ⟨TokenBucket.consume_denied b now n h, ?_⟩
    exact div_nonneg (by linarith) (le_of_lt hr)

/-- Witness for `consume_spec` at a concrete bucket and request. -/
theorem consume_spec_witness :
    (0 : ℤ) ≤ 4 ∧ (0 : ℚ) < bucketW.rate ∧ (bucketW.consume 1 4).2.2.last_update = 1 := by
  exact ⟨by decide, by decide, (consume_spec bucketW 1 4 (by decide) (by decide)).1⟩

/-- Claim C8: for a bucket created with `rate > 0` and `capacity ≥ 1` and any
sequence of `consume(n)` calls with `n ≥ 0` on a non-decreasing clock,
`0 ≤ tokens ≤ capacity` holds at every observation point.  Quantifying over
every call sequence `ops` covers the initial point and every prefix. -/
theorem tokenBucket_invariant (rate : ℚ) (capacity : ℤ) (t0 : ℚ) (ops : List (ℚ × ℤ))
    (hr : 0 < rate) (hc : 1 ≤ capacity)
    (hn : ∀ p ∈ ops, 0 ≤ p.2)
    (hchain : List.Chain (fun a b => a ≤ b) t0 (ops.map Prod.fst)) :
    0 ≤ ((TokenBucket.init rate capacity t0).runConsume ops).tokens ∧
    ((TokenBucket.init rate capacity t0).runConsume ops).tokens
      ≤ (((TokenBucket.init rate capacity t0).runConsume ops).capacity : ℚ) := by
  have hmain : ∀ (ops : List (ℚ × ℤ)) (b : TokenBucket),
      0 ≤ b.rate → (0 : ℚ) ≤ (b.capacity : ℚ) →
      0 ≤ b.tokens → b.tokens ≤ (b.capacity : ℚ) →
      (∀ p ∈ ops, 0 ≤ p.2) →
      List.Chain (fun a b => a ≤ b) b.last_update (ops.map Prod.fst) →
      0 ≤ (b.runConsume ops).tokens ∧
      (b.runConsume ops).tokens ≤ ((b.runConsume ops).capacity : ℚ) ∧
      (b.runConsume ops).capacity = b.capacity := by
    intro ops
    induction ops with
    | nil => intro b _ _ hb0 hb1 _ _; exact ⟨hb0, hb1, rfl⟩
    | cons p ps ih =>
        intro b hbr hbc hb0 hb1 hbn hbchain
        simp only [List.map_cons, List.chain_cons] at hbchain
        have hstep := TokenBucket.consume_preserves b p.1 p.2 hbr hbc hb0 hb1
          (hbn p (List.mem_cons_self p ps)) hbchain.1
        have hrc := TokenBucket.consume_rate_capacity b p.1 p.2
        have hrec := ih (b.consume p.1 p.2).2.2
          (by rw [hrc.1]; exact hbr) (by rw [hrc.2]; exact hbc)
          hstep.1 (by rw [hrc.2]; exact hstep.2.1)
          (fun q hq => hbn q (List.mem_cons_of_mem p hq))
          (by rw [hstep.2.2]; exact hbchain.2)
        simp only [TokenBucket.runConsume]
        exact ⟨hrec.1, hrec.2.1, by rw [hrec.2.2, hrc.2]⟩
  have hinit : (TokenBucket.init rate capacity t0).tokens
      ≤ ((TokenBucket.init rate capacity t0).capacity : ℚ) := le_refl _
  have hcq : (0 : ℚ) ≤ ((TokenBucket.init rate capacity t0).capacity : ℚ) := by
    simp only [TokenBucket.init]
    exact_mod_cast le_trans (by omega) hc
  have := hmain ops (TokenBucket.init rate capacity t0) (le_of_lt hr) hcq
    hcq hinit hn hchain
  exact ⟨this.1, this.2.1⟩

/-- Witness for `tokenBucket_invariant` on a concrete two-call sequence. -/
theorem tokenBucket_invariant_witness :
    0 ≤ ((TokenBucket.init 2 3 0).runConsume [(1, 2), (1, 2)]).tokens ∧
    ((TokenBucket.init 2 3 0).runConsume [(1, 2), (1, 2)]).tokens
      ≤ ((((TokenBucket.init 2 3 0).runConsume [(1, 2), (1, 2)])).capacity : ℚ) := by
  exact tokenBucket_invariant 2 3 0 [(1, 2), (1, 2)] (by norm_num) (by norm_num)
    (by intro p hp; fin_cases hp <;> norm_num)
    (List.Chain.cons (by norm_num) (List.Chain.cons (by norm_num) List.Chain.nil))

/-- Claim C10: `recordSuccess` in `Closed` or `Open` only zeroes
`failureCount` — state, `lastFailureTime` and `halfOpenCalls` are untouched
(an `Open` breaker is not closed by a success) — while a success recorded in
`HalfOpen` transitions the breaker to `Closed`. -/
theorem record_success_frame (cb : CircuitBreaker) :
    (cb.state = CircuitState.closed ∨ cb.state = CircuitState.opn →
      cb.record_success = { cb with failure_count := 0 }) ∧
    (cb.state = CircuitState.halfOpen →
      cb.record_success =
        { cb with
          state := CircuitState.closed
          failure_count := 0
          half_open_calls := 0 }) := by
  constructor
  · intro h
    have hne : ¬ cb.state = CircuitState.halfOpen := by
      rcases h with h | h <;> rw [h] <;> intro hc <;> cases hc
    simp [CircuitBreaker.record_success, hne]
  · intro h
    simp [CircuitBreaker.record_success, h, CircuitBreaker.transition_to]

/-- Witness for `record_success_frame`: an `Open` breaker with nonzero
bookkeeping keeps its state and timestamps, losing only `failureCount`. -/
theorem record_success_frame_witness :
    (CircuitBreaker.record_success
        { state := CircuitState.opn, failure_count := 4,
          last_failure_time := some 7, half_open_calls := 2 }) =
      { state := CircuitState.opn, failure_count := 0,
        last_failure_time := some 7, half_open_calls := 2 } := by
  exact (record_success_frame
    { state := CircuitState.opn, failure_count := 4,
      last_failure_time := some 7, half_open_calls := 2 }).1 (Or.inr rfl)

/-- Claim C6: an `Open` breaker with `lastFailureTime = T` denies every
check strictly before `T + recoveryTimeout` leaving itself unchanged, and
the first check at or after `T + recoveryTimeout` is granted and transitions
the breaker to `HalfOpen` as a side effect of that same check. -/
theorem recovery_timing (cfg : RateLimitConfig) (cb : CircuitBreaker) (T now : ℚ)
    (hs : cb.state = CircuitState.opn) (hl : cb.last_failure_time = some T) :
    (now < T + cfg.recovery_timeout → cb.call_allowed cfg now = (false, cb)) ∧
    (T + cfg.recovery_timeout ≤ now →
      cb.call_allowed cfg now = (true, cb.transition_to CircuitState.halfOpen) ∧
      (cb.call_allowed cfg now).2.state = CircuitState.halfOpen) := by
  constructor
  · intro h
    have hc : ¬ cfg.recovery_timeout ≤ now - T := by linarith
    simp [CircuitBreaker.call_allowed, hs, hl, hc]
  · intro h
    have hc : cfg.recovery_timeout ≤ now - T := by linarith
    constructor
    · simp [CircuitBreaker.call_allowed, hs, hl, hc]
    · simp [CircuitBreaker.call_allowed, hs, hl, hc, CircuitBreaker.transition_to]

/-- Witness for `recovery_timing`: with `T = 5` and a 60 second timeout, a
check at time 10 is denied and a check at time 65 flips the breaker to
`HalfOpen`. -/
theorem recovery_timing_witness :
    openBreakerW.call_allowed cfgW 10 = (false, openBreakerW) ∧
    (openBreakerW.call_allowed cfgW 65).2.state = CircuitState.halfOpen := by
  refine ⟨?_, ?_⟩
  · exact (recovery_timing cfgW openBreakerW 5 10 rfl rfl).1 (by norm_num [cfgW])
  · exact ((recovery_timing cfgW openBreakerW 5 65 rfl rfl).2 (by norm_num [cfgW])).2

/-- Claim C5: from `Closed` with `failureCount = 0`, exactly
`failureThreshold` consecutive failures open the circuit and no shorter
failure run does, while `failureThreshold − 1` failures followed by one
success leave the breaker `Closed` with `failureCount = 0`. -/
theorem breaker_threshold (cfg : RateLimitConfig) (cb : CircuitBreaker) (ts : List ℚ)
    (hs : cb.state = CircuitState.closed) (hf : cb.failure_count = 0)
    (ht : 1 ≤ cfg.failure_threshold) :
    (ts.length = cfg.failure_threshold →
      (cb.recordFailures cfg ts).state = CircuitState.opn) ∧
    (ts.length < cfg.failure_threshold →
      (cb.recordFailures cfg ts).state = CircuitState.closed ∧
      (cb.recordFailures cfg ts).failure_count = ts.length) ∧
    (ts.length + 1 = cfg.failure_threshold →
      ((cb.recordFailures cfg ts).record_success).state = CircuitState.closed ∧
      ((cb.recordFailures cfg ts).record_success).failure_count = 0) := by
  refine ⟨?_, ?_, ?_⟩
  · intro hlen
    rcases List.eq_nil_or_concat ts with rfl | ⟨ys, y, rfl⟩
    · simp at hlen; omega
    · rw [List.concat_eq_append] at hlen ⊢
      rw [CircuitBreaker.recordFailures_append]
      simp only [List.length_append, List.length_cons, List.length_nil] at hlen
      have hys := CircuitBreaker.recordFailures_closed cfg ys cb hs (by omega)
      simp only [CircuitBreaker.recordFailures]
      exact CircuitBreaker.record_failure_closed_hits _ cfg y hys.1 (by omega)
  · intro hlen
    have hrun := CircuitBreaker.recordFailures_closed cfg ts cb hs (by omega)
    exact ⟨hrun.1, by rw [hrun.2, hf]; omega⟩
  · intro hlen
    have hrun := CircuitBreaker.recordFailures_closed cfg ts cb hs (by omega)
    have hne : ¬ (cb.recordFailures cfg ts).state = CircuitState.halfOpen := by
      rw [hrun.1]; intro hc; cases hc
    constructor
    · simp [CircuitBreaker.record_success, hne, hrun.1]
    · simp [CircuitBreaker.record_success, hne]

/-- Witness for `breaker_threshold`: threshold 5, five failures open the
circuit; four failures then a success close it with a zero count. -/
theorem breaker_threshold_witness :
    (CircuitBreaker.init.recordFailures cfgW [1, 2, 3, 4, 5]).state = CircuitState.opn ∧
    ((CircuitBreaker.init.recordFailures cfgW [1, 2, 3, 4]).record_success).state
      = CircuitState.closed := by
  constructor
  · exact (breaker_threshold cfgW CircuitBreaker.init [1, 2, 3, 4, 5] rfl rfl
      (by norm_num [cfgW])).1 (by norm_num [cfgW])
  · exact ((breaker_threshold cfgW CircuitBreaker.init [1, 2, 3, 4] rfl rfl
      (by norm_num [cfgW])).2.2 (by norm_num [cfgW])).1

/-- Claim C3: from the moment the breaker enters `HalfOpen` (which zeroes
`halfOpenCalls`) until it next leaves that state — admission checks alone
never leave it — `callAllowed` grants at most `halfOpenMaxCalls` probes, and
`halfOpenCalls ≤ halfOpenMaxCalls` holds at every observation point.
Quantifying over every check sequence `ts` covers every prefix of the
episode. -/
theorem halfOpen_probe_bound (cfg : RateLimitConfig) (cb0 : CircuitBreaker) (ts : List ℚ) :
    (((cb0.transition_to CircuitState.halfOpen).runCallAllowed cfg ts).1
      ≤ cfg.half_open_max_calls) ∧
    (((cb0.transition_to CircuitState.halfOpen).runCallAllowed cfg ts).2.half_open_calls
      ≤ cfg.half_open_max_calls) ∧
    (((cb0.transition_to CircuitState.halfOpen).runCallAllowed cfg ts).2.state
      = CircuitState.halfOpen) := by
  have hrun := CircuitBreaker.runCallAllowed_halfOpen cfg ts
    (cb0.transition_to CircuitState.halfOpen)
    (by simp [CircuitBreaker.transition_to]) (by simp [CircuitBreaker.transition_to])
  have hz : (cb0.transition_to CircuitState.halfOpen).half_open_calls = 0 := by
    simp [CircuitBreaker.transition_to]
  refine ⟨?_, hrun.2.2, hrun.1⟩
  have := hrun.2.1
  omega

/-- Claim C4: when the up-front `callAllowed` check fails, `execute` raises
the "service unavailable" error at once: `work` is never invoked, no sleep is
requested, `circuitBreakerRejections` grows by exactly one, and the bucket,
the breaker (including its failure bookkeeping) and every other stats field
are left unchanged.  The equality pins the whole outcome to the single
up-front check, so no further `callAllowed` call occurs in this `execute`. -/
theorem circuit_open_fast_fail (cfg : RateLimitConfig) (env : Env ε α) (fuel : ℕ)
    (s : LimiterState)
    (h : (s.breaker.call_allowed cfg (env.clock 0)).1 = false) :
    RateLimiter.execute cfg env fuel s =
      (ExecResult.circuitOpenErr,
        { s := { s with stats := { s.stats with
            circuit_breaker_rejections := s.stats.circuit_breaker_rejections + 1 } }
          ci := 1
          wi := 0
          retry_count := 0
          backoff := cfg.initial_backoff
          last_exception := none
          sleeps := [] }) := by
  have hframe := CircuitBreaker.call_allowed_false_frame s.breaker cfg (env.clock 0) h
  simp only [RateLimiter.execute, h, hframe]
  rfl

/-- Witness for `circuit_open_fast_fail`: a breaker opened at time 5 checked
at time 10 under a 60 second recovery timeout. -/
theorem circuit_open_fast_fail_witness :
    ((openStateW.breaker.call_allowed cfgW (openEnvW.clock 0)).1 = false) ∧
    (RateLimiter.execute cfgW openEnvW 7 openStateW).1 = ExecResult.circuitOpenErr := by
  have h : (openStateW.breaker.call_allowed cfgW (openEnvW.clock 0)).1 = false := by
    show (openBreakerW.call_allowed cfgW 10).1 = false
    norm_num [CircuitBreaker.call_allowed, openBreakerW, cfgW]
  refine ⟨h, ?_⟩
  rw [circuit_open_fast_fail cfgW openEnvW 7 openStateW h]

/-- Claim C1 (amended): with `maxRetries = m` and a `work()` that raises on
every invocation, under conditions guaranteeing every `tokenBucket.consume`
admits (monotone clock, nonnegative rate, an in-range balance of at least
`m + 1` tokens), one `execute` call invokes `work()` exactly `m + 1` times and
propagates the last error, and `totalRetryAttempts` increases by exactly
`m + 1` — one increment per failed attempt, including the final one — not by
`m` as the spec claims. -/
theorem retry_bound_allFail (cfg : RateLimitConfig) (env : Env ε α) (f : ℕ → ε)
    (s : LimiterState) (fuel : ℕ)
    (hw : ∀ i, env.work i = Except.error (f i))
    (hmono : Monotone env.clock)
    (hallow : (s.breaker.call_allowed cfg (env.clock 0)).1 = true)
    (hfuel : cfg.max_retries + 2 ≤ fuel)
    (hr : 0 ≤ s.bucket.rate)
    (hcap : s.bucket.tokens ≤ (s.bucket.capacity : ℚ))
    (htok : ((cfg.max_retries + 1 : ℕ) : ℚ) ≤ s.bucket.tokens)
    (hlu : s.bucket.last_update ≤ env.clock 1) :
    (RateLimiter.execute cfg env fuel s).1 = ExecResult.err (f cfg.max_retries) ∧
    (RateLimiter.execute cfg env fuel s).2.wi = cfg.max_retries + 1 ∧
    (RateLimiter.execute cfg env fuel s).2.s.stats.total_retry_attempts
      = s.stats.total_retry_attempts + (cfg.max_retries + 1) := by
  rw [execute_allowed_unfold cfg env fuel s hallow]
  have hall := executeLoop_allFail cfg env f hw hmono (cfg.max_retries + 1) fuel
    (RateLimiter.initVars cfg s (s.breaker.call_allowed cfg (env.clock 0)).2)
    (by omega) (by show 0 + (cfg.max_retries + 1) = cfg.max_retries + 1; omega)
    (by omega) hr hcap htok hlu
  refine ⟨?_, ?_, ?_⟩
  · rw [hall.1]
    simp only [RateLimiter.initVars]
    congr 2
    omega
  · rw [hall.2.1]
    simp only [RateLimiter.initVars]
    omega
  · rw [hall.2.2.1]
    simp only [RateLimiter.initVars]

/-- Counterexample to claim C1 as stated: with `maxRetries = 1` and
always-failing `work`, `work()` is invoked twice (as claimed) but
`totalRetryAttempts` ends at 2, not at `maxRetries = 1`. -/
theorem retry_stat_counterexample :
    (RateLimiter.execute cexCfg cexEnv 10 cexState).2.wi = cexCfg.max_retries + 1 ∧
    (RateLimiter.execute cexCfg cexEnv 10 cexState).2.s.stats.total_retry_attempts = 2 ∧
    ¬ ((RateLimiter.execute cexCfg cexEnv 10 cexState).2.s.stats.total_retry_attempts
        = cexCfg.max_retries) := by
  rw [execute_allowed_unfold cexCfg cexEnv 10 cexState rfl]
  have hall := executeLoop_allFail cexCfg cexEnv (fun _ => ()) (fun _ => rfl)
    monotone_const (cexCfg.max_retries + 1) 10
    (RateLimiter.initVars cexCfg cexState (cexState.breaker.call_allowed cexCfg (cexEnv.clock 0)).2)
    (by omega) (by norm_num [RateLimiter.initVars, cexCfg])
    (by norm_num [cexCfg])
    (by norm_num [RateLimiter.initVars, cexState, cexBucket])
    (by norm_num [RateLimiter.initVars, cexState, cexBucket])
    (by norm_num [RateLimiter.initVars, cexState, cexBucket, cexCfg])
    (by norm_num [RateLimiter.initVars, cexState, cexBucket, cexEnv])
  refine ⟨?_, ?_, ?_⟩
  · rw [hall.2.1]
    norm_num [RateLimiter.initVars, cexCfg]
  · rw [hall.2.2.1]
    norm_num [RateLimiter.initVars, cexState, RateLimitStats.init, cexCfg]
  · rw [hall.2.2.1]
    norm_num [RateLimiter.initVars, cexState, RateLimitStats.init, cexCfg]

theorem retry_bound_allFail_witness :
    (RateLimiter.execute cexCfg cexEnv 10 cexState).1 = ExecResult.err () ∧
    (RateLimiter.execute cexCfg cexEnv 10 cexState).2.wi = cexCfg.max_retries + 1 ∧
    (RateLimiter.execute cexCfg cexEnv 10 cexState).2.s.stats.total_retry_attempts
      = cexState.stats.total_retry_attempts + (cexCfg.max_retries + 1) := by
  exact retry_bound_allFail cexCfg cexEnv (fun _ => ()) cexState 10
    (fun _ => rfl) monotone_const rfl (by norm_num [cexCfg])
    (by norm_num [cexState, cexBucket]) (by norm_num [cexState, cexBucket])
    (by norm_num [cexCfg, cexState, cexBucket]) (by norm_num [cexState, cexBucket, cexEnv])

/-- Claim C9: within a single `execute` call (always-failing `work`, admitted
bucket), the sleep before the k-th retry is exactly
`min(initialBackoff * backoffMultiplier^(k-1), maxBackoff)` — the recorded
sleep list is that schedule for `k = 1 .. maxRetries` — while the stored
`backoff` variable grows uncapped, ending at
`initialBackoff * backoffMultiplier^maxRetries`. -/
theorem backoff_schedule (cfg : RateLimitConfig) (env : Env ε α) (f : ℕ → ε)
    (s : LimiterState) (fuel : ℕ)
    (hw : ∀ i, env.work i = Except.error (f i))
    (hmono : Monotone env.clock)
    (hallow : (s.breaker.call_allowed cfg (env.clock 0)).1 = true)
    (hfuel : cfg.max_retries + 2 ≤ fuel)
    (hr : 0 ≤ s.bucket.rate)
    (hcap : s.bucket.tokens ≤ (s.bucket.capacity : ℚ))
    (htok : ((cfg.max_retries + 1 : ℕ) : ℚ) ≤ s.bucket.tokens)
    (hlu : s.bucket.last_update ≤ env.clock 1) :
    (RateLimiter.execute cfg env fuel s).2.sleeps
      = (List.range cfg.max_retries).map
          (fun j => min (cfg.initial_backoff * cfg.backoff_multiplier ^ j) cfg.max_backoff) ∧
    (RateLimiter.execute cfg env fuel s).2.backoff
      = cfg.initial_backoff * cfg.backoff_multiplier ^ cfg.max_retries := by
  rw [execute_allowed_unfold cfg env fuel s hallow]
  have hall := executeLoop_allFail cfg env f hw hmono (cfg.max_retries + 1) fuel
    (RateLimiter.initVars cfg s (s.breaker.call_allowed cfg (env.clock 0)).2)
    (by omega) (by show 0 + (cfg.max_retries + 1) = cfg.max_retries + 1; omega)
    (by omega) hr hcap htok hlu
  constructor
  · rw [hall.2.2.2.1]
    simp only [RateLimiter.initVars, List.nil_append, Nat.add_sub_cancel]
  · rw [hall.2.2.2.2]
    simp only [RateLimiter.initVars, Nat.add_sub_cancel]

theorem backoff_schedule_witness :
    (RateLimiter.execute cexCfg cexEnv 10 cexState).2.sleeps
      = (List.range cexCfg.max_retries).map
          (fun j => min (cexCfg.initial_backoff * cexCfg.backoff_multiplier ^ j)
            cexCfg.max_backoff) ∧
    (RateLimiter.execute cexCfg cexEnv 10 cexState).2.backoff
      = cexCfg.initial_backoff * cexCfg.backoff_multiplier ^ cexCfg.max_retries := by
  exact backoff_schedule cexCfg cexEnv (fun _ => ()) cexState 10
    (fun _ => rfl) monotone_const rfl (by norm_num [cexCfg])
    (by norm_num [cexState, cexBucket]) (by norm_num [cexState, cexBucket])
    (by norm_num [cexCfg, cexState, cexBucket]) (by norm_num [cexState, cexBucket, cexEnv])

/-- Claim C2, the code evaluated at the failing input: a zero-capacity
bucket with a positive rate (`burst_size = 0`, `rate = 1`, so every wait-time
division is well defined and no Python exception path is involved) can never
admit a token; ten iterations of the retry loop all take the denied-denied
`continue` path: only `rateLimitedRequests` is incremented (once per
iteration), `retryCount` and `totalRetryAttempts` stay at 0, `work()` is
never invoked, and the loop never exits — the retry bookkeeping the spec
promises for this path never happens. -/
theorem rate_limit_loop_no_bookkeeping :
    (RateLimiter.execute bugCfg cexEnv 10 bugState).1 = ExecResult.fuelOut ∧
    (RateLimiter.execute bugCfg cexEnv 10 bugState).2.wi = 0 ∧
    (RateLimiter.execute bugCfg cexEnv 10 bugState).2.retry_count = 0 ∧
    (RateLimiter.execute bugCfg cexEnv 10 bugState).2.s.stats.total_retry_attempts = 0 ∧
    (RateLimiter.execute bugCfg cexEnv 10 bugState).2.s.stats.rate_limited_requests = 10 := by
  rw [execute_allowed_unfold bugCfg cexEnv 10 bugState rfl]
  have hstarve := executeLoop_starvation bugCfg cexEnv 10
    (RateLimiter.initVars bugCfg bugState (bugState.breaker.call_allowed bugCfg (cexEnv.clock 0)).2)
    (by norm_num [RateLimiter.initVars, bugCfg])
    (by norm_num [RateLimiter.initVars, bugState, bugBucket])
  refine ⟨hstarve.1, ?_, ?_, ?_, ?_⟩
  · rw [hstarve.2.1]
    norm_num [RateLimiter.initVars]
  · rw [hstarve.2.2.1]
    norm_num [RateLimiter.initVars]
  · rw [hstarve.2.2.2.1]
    norm_num [RateLimiter.initVars, bugState, RateLimitStats.init]
  · rw [hstarve.2.2.2.2]
    norm_num [RateLimiter.initVars, bugState, RateLimitStats.init]
